import Mathlib

/-!
Verification of the Today-Scoped Loader & Change Cache
(`src/excel_reminder.py`, class `ExcelReminderApp`).

The Python program is shallowly embedded below: pure helpers become Lean
functions, exceptions become `Except`/`Option`, and the object state mutated
by `load_today_data` is threaded explicitly through an `AppState`.  Machine
behaviour that the program relies on (Python `str()` of dates, truthiness,
`json` round-trips, `dict` update semantics) is modelled by small executable
definitions next to their uses.
-/

set_option autoImplicit false

namespace ExcelReminder

/-- Calendar date, mirroring `datetime.date` (year, month, day). -/
structure Date where
  year : Nat
  month : Nat
  day : Nat
deriving DecidableEq, Repr

/-- Instant at second precision, mirroring `datetime.datetime` as used by the
program (the program never constructs sub-second precision values from its
accepted text formats, and `str()` omits a zero microsecond field). -/
structure DateTime where
  year : Nat
  month : Nat
  day : Nat
  hour : Nat
  minute : Nat
  second : Nat
deriving DecidableEq, Repr

/-- `datetime.date()` on a datetime: drop the time-of-day part. -/
def DateTime.date (t : DateTime) : Date :=
  ⟨t.year, t.month, t.day⟩

/-- `datetime.combine(d, time())`: a date promoted to midnight. -/
def Date.atMidnight (d : Date) : DateTime :=
  ⟨d.year, d.month, d.day, 0, 0, 0⟩

/-- Zero-pad a number to two digits, as `%m`, `%d`, `%H`, `%M`, `%S` print. -/
def pad2 (n : Nat) : String :=
  if n < 10 then "0" ++ toString n else toString n

/-- Zero-pad a number to four digits, as `%Y` prints. -/
def pad4 (n : Nat) : String :=
  if n < 10 then "000" ++ toString n
  else if n < 100 then "00" ++ toString n
  else if n < 1000 then "0" ++ toString n
  else toString n

/-- Python `str(date)`: the ISO form `YYYY-MM-DD`. -/
def dateStr (d : Date) : String :=
  pad4 d.year ++ "-" ++ pad2 d.month ++ "-" ++ pad2 d.day

/-- Python `str(datetime)` at zero microseconds, which is also what
`strftime("%Y-%m-%d %H:%M:%S")` prints: `YYYY-MM-DD HH:MM:SS`. -/
def dtStr (t : DateTime) : String :=
  dateStr t.date ++ " " ++ pad2 t.hour ++ ":" ++ pad2 t.minute ++ ":" ++ pad2 t.second

/-- A dynamic cell / field value.  These are the value shapes that flow through
the program: spreadsheet cells (`None`, text, integers, booleans, dates,
datetimes) and JSON scalars read back from the cache file. -/
inductive Value where
  | vNone
  | vBool (b : Bool)
  | vInt (n : Int)
  | vStr (s : String)
  | vDT (t : DateTime)
  | vDate (d : Date)
deriving DecidableEq, Repr

/-- Python `str()` on the values above. -/
def pyStr (v : Value) : String :=
  match v with
  | .vNone => "None"
  | .vBool b => if b then "True" else "False"
  | .vInt n => toString n
  | .vStr s => s
  | .vDT t => dtStr t
  | .vDate d => dateStr d

/-- Python truthiness (`if time_value:`): `None`, `""`, `0` and `False` are
falsy; dates and datetimes are always truthy. -/
def truthy (v : Value) : Bool :=
  match v with
  | .vNone => false
  | .vBool b => b
  | .vInt n => n != 0
  | .vStr s => s != ""
  | .vDT _ => true
  | .vDate _ => true

/-- Split a character list at every occurrence of `sep`, the single-character
case of Python `str.split` as `strptime`'s literal separators use it. -/
def splitOnChar (sep : Char) : List Char → List (List Char)
  | [] => [[]]
  | c :: rest =>
    match splitOnChar sep rest with
    | [] => [[]]
    | g :: gs => if c = sep then [] :: g :: gs else (c :: g) :: gs

/-- ASCII lower-casing, as `.lower()` acts on a file extension. -/
def strToLower (s : String) : String :=
  ⟨s.data.map Char.toLower⟩

/-- Digit characters to a number (callers guarantee all are digits). -/
def digitsVal (cs : List Char) : Nat :=
  cs.foldl (fun n c => n * 10 + (c.toNat - 48)) 0

/-- One `strptime` numeric field: between 1 and `maxLen` digits
(`%Y` accepts 1-4 digits, the two-digit fields accept 1-2). -/
def parseNatLen (cs : List Char) (maxLen : Nat) : Option Nat :=
  if cs.length = 0 ∨ maxLen < cs.length then none
  else if cs.all Char.isDigit then some (digitsVal cs) else none

/-- Gregorian leap-year rule, as `datetime` validates. -/
def isLeapYear (y : Nat) : Bool :=
  y % 4 == 0 && (y % 100 != 0 || y % 400 == 0)

/-- Days in a month (meaningful for months 1-12). -/
def daysInMonth (y m : Nat) : Nat :=
  if m == 2 then (if isLeapYear y then 29 else 28)
  else if m == 4 || m == 6 || m == 9 || m == 11 then 30
  else 31

/-- `datetime` range validation: year 1-9999, month 1-12, day within month. -/
def mkValidDate (y m d : Nat) : Option Date :=
  if 1 ≤ y ∧ y ≤ 9999 ∧ 1 ≤ m ∧ m ≤ 12 ∧ 1 ≤ d ∧ d ≤ daysInMonth y m then
    some ⟨y, m, d⟩
  else none

/-- `strptime(cs, "%Y-%m-%d")` on a character list (the whole input must be
consumed; the literal separator is modelled as a single character). -/
def parseYMDChars (cs : List Char) : Option Date :=
  match splitOnChar '-' cs with
  | [ys, ms, ds] =>
    match parseNatLen ys 4, parseNatLen ms 2, parseNatLen ds 2 with
    | some y, some m, some d => mkValidDate y m d
    | _, _, _ => none
  | _ => none

/-- `strptime(cs, "%m/%d/%Y")` on a character list. -/
def parseMDYChars (cs : List Char) : Option Date :=
  match splitOnChar '/' cs with
  | [ms, ds, ys] =>
    match parseNatLen ms 2, parseNatLen ds 2, parseNatLen ys 4 with
    | some m, some d, some y => mkValidDate y m d
    | _, _, _ => none
  | _ => none

/-- `strptime` time-of-day part `"%H:%M:%S"` with `datetime` range checks. -/
def parseHMSChars (cs : List Char) : Option (Nat × Nat × Nat) :=
  match splitOnChar ':' cs with
  | [hs, ms, ss] =>
    match parseNatLen hs 2, parseNatLen ms 2, parseNatLen ss 2 with
    | some h, some mi, some se =>
      if h ≤ 23 ∧ mi ≤ 59 ∧ se ≤ 59 then some (h, mi, se) else none
    | _, _, _ => none
  | _ => none

/-- `strptime(s, "%Y-%m-%d")`. -/
def parseYMD (s : String) : Option Date :=
  parseYMDChars s.toList

/-- `strptime(s, "%m/%d/%Y")`. -/
def parseMDY (s : String) : Option Date :=
  parseMDYChars s.toList

/-- `strptime(s, "%Y-%m-%d %H:%M:%S")`. -/
def parseFmtYmdHms (s : String) : Option DateTime :=
  match splitOnChar ' ' s.toList with
  | [dp, tp] =>
    match parseYMDChars dp, parseHMSChars tp with
    | some d, some (h, mi, se) => some ⟨d.year, d.month, d.day, h, mi, se⟩
    | _, _ => none
  | _ => none

/-- `strptime(s, "%m/%d/%Y %H:%M:%S")`. -/
def parseFmtMdyHms (s : String) : Option DateTime :=
  match splitOnChar ' ' s.toList with
  | [dp, tp] =>
    match parseMDYChars dp, parseHMSChars tp with
    | some d, some (h, mi, se) => some ⟨d.year, d.month, d.day, h, mi, se⟩
    | _, _ => none
  | _ => none

/-- `ExcelReminderApp._parse_time` (lines 132-150): strings are tried against
the four formats in priority order, native datetimes pass through, dates are
promoted to midnight, and anything else raises
`ValueError(f"未知时间格式: {time_value}")`. -/
def parseTime (v : Value) : Except String DateTime :=
  match v with
  | .vStr s =>
    match parseFmtYmdHms s with
    | some t => .ok t
    | none =>
      match parseYMD s with
      | some d => .ok d.atMidnight
      | none =>
        match parseFmtMdyHms s with
        | some t => .ok t
        | none =>
          match parseMDY s with
          | some d => .ok d.atMidnight
          | none => .error ("time data does not match format: " ++ s)
  | .vDT t => .ok t
  | .vDate d => .ok d.atMidnight
  | _ => .error ("未知时间格式: " ++ pyStr v)

/-- One extracted record: the Python dict `{'时间': time_obj, col: value, ...}`.
The mandatory `时间` entry is the `time` field; the remaining entries, in
insertion order, are `fields`. -/
structure Record where
  time : Value
  fields : List (String × Value)
deriving DecidableEq, Repr

/-- Python `dict` update `d[k] = v`: overwrite in place if the key exists
(keeping its position), else append. -/
def upsert {α : Type} (l : List (String × α)) (k : String) (v : α) : List (String × α) :=
  match l with
  | [] => [(k, v)]
  | (k', v') :: rest => if k' = k then (k, v) :: rest else (k', v') :: upsert rest k v

/-- First binding of a key in an association list (keys are unique in the
dicts the program builds, so this is Python `dict` indexing). -/
def lookupStr {α : Type} (l : List (String × α)) (k : String) : Option α :=
  match l with
  | [] => none
  | (k', v) :: rest => if k' = k then some v else lookupStr rest k

/-- Python `dict.get(k, d)` over the `fields` association list. -/
def getD (l : List (String × Value)) (k : String) (d : Value) : Value :=
  match lookupStr l k with
  | some v => v
  | none => d

/-- The identity key of `_print_new_records` (lines 76-77):
`str(record["时间"]) + str(record.get("姓名", ""))`.  Note the field name
`"姓名"` is a literal in the source, independent of `content_columns`. -/
def recordKey (r : Record) : String :=
  pyStr r.time ++ pyStr (getD r.fields "姓名" (.vStr ""))

/-- The records of `cur` whose key is absent from `prev`
(`[r for r in self.today_data if ... not in old_ids]`, line 77). -/
def newRecords (prev cur : List Record) : List Record :=
  cur.filter (fun r => decide (recordKey r ∉ prev.map recordKey))

/-- The snapshot of newly-appeared records that `_print_new_records`
(lines 69-84) emits: on a first load (`if not self.previous_data:`) the whole
current snapshot, otherwise the key-based difference. -/
def diffRecords (prev cur : List Record) : List Record :=
  if prev.isEmpty then cur else newRecords prev cur

/-- `_print_record` (lines 86-90): `record["时间"].strftime(...)` succeeds on
datetime/date values and raises `AttributeError` on anything else (in
particular on the strings that cache-loaded records carry). -/
def printRecord (r : Record) : Except String Unit :=
  match r.time with
  | .vDT _ => .ok ()
  | .vDate _ => .ok ()
  | _ => .error "AttributeError: strftime"

/-- Print each record in turn, stopping at the first failure. -/
def printRecords (rs : List Record) : Except String Unit :=
  match rs with
  | [] => .ok ()
  | r :: rest =>
    match printRecord r with
    | .ok _ => printRecords rest
    | .error e => .error e

/-- `_print_new_records` as executed (print side effects abstracted to the
possibility of an `AttributeError`); returns the emitted new records. -/
def printNewRecords (prev cur : List Record) : Except String (List Record) :=
  if prev.isEmpty then
    match printRecords cur with
    | .ok _ => .ok cur
    | .error e => .error e
  else
    let news := newRecords prev cur
    match printRecords news with
    | .ok _ => .ok news
    | .error e => .error e

/-- Fold of `_get_columns`'s header scan (lines 95-99), `i` being the 1-based
index of the first cell of `cells`.  `cell.value == self.time_column` is
equality with a string, so only a string cell can match; a later match
overwrites an earlier one, for the time column and for content columns. -/
def getColumnsAux (cells : List Value) (i : Nat) (tc : String) (ccs : List String)
    (tAcc : Option Nat) (cAcc : List (String × Nat)) : Option Nat × List (String × Nat) :=
  match cells with
  | [] => (tAcc, cAcc)
  | c :: rest =>
    let tAcc' := if c = .vStr tc then some i else tAcc
    let cAcc' :=
      match c with
      | .vStr s => if s ∈ ccs then upsert cAcc s i else cAcc
      | _ => cAcc
    getColumnsAux rest (i + 1) tc ccs tAcc' cAcc'

/-- `ExcelReminderApp._get_columns` (lines 92-102): scan the header row,
resolve the time column and the configured content columns to 1-based
positions, and raise `ValueError` when the time column is missing. -/
def getColumns (header : List Value) (tc : String) (ccs : List String) :
    Except String (Nat × List (String × Nat)) :=
  match getColumnsAux header 1 tc ccs none [] with
  | (none, _) => .error ("未找到时间列: " ++ tc)
  | (some ti, cis) => .ok (ti, cis)

/-- Build one record (lines 111-113): start from `{'时间': time_obj}` and then
assign each resolved content column, `row[col_idx-1] if col_idx-1 < len(row)
else None` (out-of-range cells become `None`, which `List.getD` reproduces).
An assignment to the literal key `时间` overwrites the timestamp entry. -/
def mkRecord (t : DateTime) (row : List Value) (cIdxs : List (String × Nat)) : Record :=
  cIdxs.foldl
    (fun r kv =>
      let v := row.getD (kv.2 - 1) .vNone
      if kv.1 = "时间" then { r with time := v }
      else { r with fields := upsert r.fields kv.1 v })
    { time := .vDT t, fields := [] }

/-- One data row of `_parse_xlsx_rows`'s loop body (lines 106-114):
`row[time_col_idx - 1]` raises `IndexError` on a short row; falsy time cells
skip the row before any parsing; `_parse_time` failures propagate; rows of
other days are dropped. -/
def rowStep (row : List Value) (ti : Nat) (cIdxs : List (String × Nat)) (today : Date) :
    Except String (Option Record) :=
  if ti - 1 < row.length then
    let tv := row.getD (ti - 1) .vNone
    if truthy tv then
      match parseTime tv with
      | .error e => .error e
      | .ok t => if t.date = today then .ok (some (mkRecord t row cIdxs)) else .ok none
    else .ok none
  else .error "IndexError"

/-- `ExcelReminderApp._parse_xlsx_rows` (lines 104-115) over the data rows
(header excluded): collect today's records in source order; the first uncaught
exception aborts the whole extraction. -/
def parseXlsxRows (rows : List (List Value)) (ti : Nat) (cIdxs : List (String × Nat))
    (today : Date) : Except String (List Record) :=
  match rows with
  | [] => .ok []
  | row :: rest =>
    match rowStep row ti cIdxs today with
    | .error e => .error e
    | .ok none => parseXlsxRows rest ti cIdxs today
    | .ok (some r) =>
      match parseXlsxRows rest ti cIdxs today with
      | .error e => .error e
      | .ok rs => .ok (r :: rs)

/-- JSON values, as produced by `json.load` / consumed by `json.dump`. -/
inductive J where
  | null
  | jb (b : Bool)
  | ji (n : Int)
  | js (s : String)
  | arr (items : List J)
  | obj (entries : List (String × J))

/-- First binding of a key in a JSON object (keys are unique in parsed JSON). -/
def jLookup (entries : List (String × J)) (k : String) : Option J :=
  match entries with
  | [] => none
  | (k', v) :: rest => if k' = k then some v else jLookup rest k

/-- Python `x == some_string` for a JSON value `x` (possibly absent):
true exactly when `x` is that string. -/
def jIsStr (x : Option J) (s : String) : Bool :=
  match x with
  | some (.js s') => s' == s
  | _ => false

/-- `json.dump(..., default=str)` on a record value: JSON-native scalars pass
through, datetimes and dates are replaced by their `str()` form. -/
def valueToJ (v : Value) : J :=
  match v with
  | .vNone => .null
  | .vBool b => .jb b
  | .vInt n => .ji n
  | .vStr s => .js s
  | .vDT t => .js (dtStr t)
  | .vDate d => .js (dateStr d)

/-- `json.load`'s view of a scalar back as a dynamic value.  Parsed JSON never
contains datetimes: they come back as plain strings. -/
def jToValue (j : J) : Option Value :=
  match j with
  | .null => some .vNone
  | .jb b => some (.vBool b)
  | .ji n => some (.vInt n)
  | .js s => some (.vStr s)
  | _ => none

/-- A record as serialized by `_cache_data`: the `时间` entry first, then the
content fields in dict order. -/
def recordToJ (r : Record) : J :=
  .obj (("时间", valueToJ r.time) :: r.fields.map (fun kv => (kv.1, valueToJ kv.2)))

/-- Read one cached record back.  The program itself only ever writes objects
whose values are scalars and whose first key is `时间`; shapes outside that
(nested containers, missing `时间`) are not representable as a `Record` and
make the decode fail — in the running program such shapes surface later as a
`TypeError`/`KeyError` inside the same poll (see `CacheReadOutcome.raisePost`). -/
def decodeRecord (j : J) : Option Record :=
  match j with
  | .obj kvs =>
    match jLookup kvs "时间" with
    | some tv =>
      match jToValue tv with
      | some t =>
        match (kvs.filter (fun kv => kv.1 != "时间")).mapM
            (fun kv => (jToValue kv.2).map (fun v => (kv.1, v))) with
        | some fs => some { time := t, fields := fs }
        | none => none
      | none => none
    | none => none
  | _ => none

/-- Read the cached snapshot list back, element-wise. -/
def decodeSnapshot (j : J) : Option (List Record) :=
  match j with
  | .arr items => items.mapM decodeRecord
  | _ => none

/-- What the on-disk cache file currently holds, from the reader's point of
view: absent (`FileNotFoundError`), present but unreadable (`OSError` other
than not-found, e.g. `PermissionError`), readable but not JSON
(`json.JSONDecodeError`), or well-formed JSON. -/
inductive CacheFileState where
  | missing
  | unreadable
  | malformed
  | ok (j : J)

/-- Outcome of the cache-read attempt of `load_today_data` (lines 28-38).
`raisePre` is an exception escaping the inner `try` before `today_data` is
reassigned (only `FileNotFoundError`/`JSONDecodeError` are caught there);
`raisePost` is a failure after `today_data` has already been replaced by the
cached payload. -/
inductive CacheReadOutcome where
  | miss
  | hit (snapshot : List Record)
  | raisePre (msg : String)
  | raisePost (msg : String)
deriving DecidableEq, Repr

/-- The cache-read attempt (lines 28-38): a missing file or a JSON decode
error falls through as a miss; any other JSON shape is probed with
`cache.get('date')`, which raises `AttributeError` unless the top level is an
object; a stored date equal to `str(today)` is a hit on `cache.get('data', [])`. -/
def cacheRead (cs : CacheFileState) (today : Date) : CacheReadOutcome :=
  match cs with
  | .missing => .miss
  | .malformed => .miss
  | .unreadable => .raisePre "PermissionError"
  | .ok j =>
    match j with
    | .obj kvs =>
      if jIsStr (jLookup kvs "date") (dateStr today) then
        match decodeSnapshot ((jLookup kvs "data").getD (.arr [])) with
        | some snap => .hit snap
        | none => .raisePost "TypeError"
      else .miss
    | _ => .raisePre "AttributeError"

/-- `ExcelReminderApp._cache_data` (lines 152-155): overwrite the cache file
with `{'date': str(today), 'data': self.today_data}`, serialized by
`json.dump(..., default=str)`. -/
def cacheWrite (today : Date) (data : List Record) : CacheFileState :=
  .ok (.obj [("date", .js (dateStr today)), ("data", .arr (data.map recordToJ))])

/-- The mutable fields of `ExcelReminderApp` that `load_today_data` touches,
together with the fixed configuration it reads. -/
structure AppState where
  todayData : List Record
  previousData : List Record
  timeColumn : String
  contentColumns : List String
deriving DecidableEq, Repr

/-- The environment of one call to `load_today_data`: the cache file, the
source file's existence and (raw) extension, the worksheet contents for the
`.xlsx` branch, and — for the pandas-based `.xls` branch, whose library
internals are outside this embedding — the outcome of `pd.read_excel` and of
`_parse_xls_data(df, today)` as oracles. -/
structure Env where
  cache : CacheFileState
  sourceExists : Bool
  ext : String
  header : List Value
  rows : List (List Value)
  xlsRead : Except String Unit
  xlsParse : Except String (List Record)

/-- The Excel branch of `load_today_data` (lines 40-65), entered when the
cache did not hit.  Returns the `(success, message)` pair, the updated object
state, and `some data` exactly when `_cache_data` ran (with the snapshot it
wrote).  Mirrors the statement order of the source: `previous_data` is saved
at line 49/54 before the extraction call, so an extraction failure leaves
`today_data` unchanged but `previous_data` already overwritten; the cache
write (line 59) precedes the `_print_new_records` call (line 63). -/
def loadFromExcel (st : AppState) (env : Env) (today : Date) :
    (Bool × String) × AppState × Option (List Record) :=
  if !env.sourceExists then
    ((false, "文件不存在: "), st, none)
  else
    let fileExt := strToLower env.ext
    if fileExt = ".xlsx" then
      match getColumns env.header st.timeColumn st.contentColumns with
      | .error e => ((false, "加载失败: " ++ e), st, none)
      | .ok (ti, cIdxs) =>
        let prev := st.todayData
        match parseXlsxRows env.rows ti cIdxs today with
        | .error e => ((false, "加载失败: " ++ e), { st with previousData := prev }, none)
        | .ok data =>
          let st' := { st with previousData := prev, todayData := data }
          match printNewRecords prev data with
          | .ok _ => ((true, "成功加载 " ++ toString data.length ++ " 条今日记录"), st', some data)
          | .error e => ((false, "加载失败: " ++ e), st', some data)
    else if fileExt = ".xls" then
      match env.xlsRead with
      | .error e => ((false, "加载失败: " ++ e), st, none)
      | .ok _ =>
        let prev := st.todayData
        match env.xlsParse with
        | .error e => ((false, "加载失败: " ++ e), { st with previousData := prev }, none)
        | .ok data =>
          let st' := { st with previousData := prev, todayData := data }
          match printNewRecords prev data with
          | .ok _ => ((true, "成功加载 " ++ toString data.length ++ " 条今日记录"), st', some data)
          | .error e => ((false, "加载失败: " ++ e), st', some data)
    else
      ((false, "不支持的文件类型: " ++ fileExt), st, none)

/-- `ExcelReminderApp.load_today_data(print_new_records=True)` (lines 23-67) —
the variant every caller in the program uses.  Returns the `(success,
message)` pair, the object state after the call, and the resulting cache file
state.  Exceptions anywhere inside are caught at line 66 and reported as
`(False, "加载失败: ...")`.  In the `raisePost` case the running program keeps
the undecodable payload in `today_data`; the model, which cannot type such a
payload, records `[]` there — no theorem below depends on that case. -/
def loadTodayData (st : AppState) (env : Env) (today : Date) :
    (Bool × String) × AppState × CacheFileState :=
  match cacheRead env.cache today with
  | .hit snap =>
    let st' := { st with previousData := st.todayData, todayData := snap }
    match printNewRecords st.todayData snap with
    | .ok _ => ((true, "从缓存加载 " ++ toString snap.length ++ " 条记录"), st', env.cache)
    | .error e => ((false, "加载失败: " ++ e), st', env.cache)
  | .raisePre e => ((false, "加载失败: " ++ e), st, env.cache)
  | .raisePost e =>
    ((false, "加载失败: " ++ e), { st with previousData := st.todayData, todayData := [] }, env.cache)
  | .miss =>
    match loadFromExcel st env today with
    | (res, st', some data) => (res, st', cacheWrite today data)
    | (res, st', none) => (res, st', env.cache)

/-- The scheduler-visible state of `ExcelReminderApp`: the `threading.Event`
`stop_event` and whether `check_thread` refers to a live thread. -/
structure SchedulerState where
  stopEvent : Bool
  threadAlive : Bool
deriving DecidableEq, Repr

/-- `__init__` (lines 19-20): event unset, no thread. -/
def initScheduler : SchedulerState := ⟨false, false⟩

/-- `start_refreshing(interval)` (lines 157-161): spawn a new daemon thread
running `_refresh_loop` only when no live thread exists.  Nothing here (or
anywhere else in the program) clears `stop_event`. -/
def startRefreshing (s : SchedulerState) (_interval : Nat) : SchedulerState :=
  if s.threadAlive then s else { s with threadAlive := true }

/-- `stop_refreshing` (lines 169-172): set `stop_event`, then
`check_thread.join(timeout=1)` — which blocks the caller for at most
`stopJoinTimeout` seconds and changes no state. -/
def stopRefreshing (s : SchedulerState) : SchedulerState :=
  { s with stopEvent := true }

/-- The background loop having terminated (its `while` guard observed the
event), after which `check_thread.is_alive()` is false. -/
def threadExited (s : SchedulerState) : SchedulerState :=
  { s with threadAlive := false }

/-- The `timeout=1` argument of `check_thread.join` at line 172 (seconds). -/
def stopJoinTimeout : Nat := 1

/-- The default poll interval of `start_refreshing` (line 157, seconds). -/
def defaultRefreshInterval : Nat := 3600

/-- Iteration structure of `_refresh_loop` (lines 163-167): `flag k` is the
value `stop_event.is_set()` returns at the top-of-loop check number `k`; the
result counts the poll iterations the loop performs before exiting (bounded
by `fuel`, since a never-stopped loop runs forever). -/
def refreshLoopIters (flag : Nat → Bool) (k : Nat) : Nat → Nat
  | 0 => 0
  | fuel + 1 => if flag k then 0 else 1 + refreshLoopIters flag (k + 1) fuel

/-- The Identity Key as the specification words it (for comparison with
`recordKey`, which is what the code computes): concatenation of the canonical
timestamp string and the value of the first configured content column,
falling back to the empty string when absent. -/
def specIdentityKey (ccs : List String) (r : Record) : String :=
  match ccs with
  | [] => pyStr r.time ++ ""
  | c :: _ => pyStr r.time ++ pyStr (getD r.fields c (.vStr ""))

/-- Whether an `Except` computation raised. -/
def isErr {ε α : Type} (x : Except ε α) : Bool :=
  match x with
  | .error _ => true
  | .ok _ => false

/-- The failure causes enumerated by the atomicity property: source missing,
unsupported extension, missing time column, or an exception during extraction
(either branch). -/
def enumeratedFailure (st : AppState) (env : Env) (today : Date) : Prop :=
  env.sourceExists = false
  ∨ (strToLower env.ext ≠ ".xlsx" ∧ strToLower env.ext ≠ ".xls")
  ∨ (strToLower env.ext = ".xlsx"
      ∧ isErr (getColumns env.header st.timeColumn st.contentColumns) = true)
  ∨ (strToLower env.ext = ".xlsx"
      ∧ ∃ ti cIdxs, getColumns env.header st.timeColumn st.contentColumns = .ok (ti, cIdxs)
          ∧ isErr (parseXlsxRows env.rows ti cIdxs today) = true)
  ∨ (strToLower env.ext = ".xls" ∧ isErr env.xlsRead = true)
  ∨ (strToLower env.ext = ".xls" ∧ env.xlsRead = .ok () ∧ isErr env.xlsParse = true)

/-- A sample record: the spec's own scenario row `2024-01-01 09:00:00, 张三`. -/
def sampleRecord : Record :=
  { time := .vDT ⟨2024, 1, 1, 9, 0, 0⟩, fields := [("姓名", .vStr "张三")] }

/-- The program's configuration from `main` restricted to one content column. -/
def sampleConfigState : AppState :=
  { todayData := [], previousData := [], timeColumn := "复诊时间", contentColumns := ["姓名"] }

/-- A healthy environment: no cache yet, an `.xlsx` source whose single data
row is the spec's scenario row. -/
def sampleEnv : Env :=
  { cache := .missing
    sourceExists := true
    ext := ".xlsx"
    header := [.vStr "复诊时间", .vStr "姓名"]
    rows := [[.vStr "2024-01-01 09:00:00", .vStr "张三"]]
    xlsRead := .ok ()
    xlsParse := .ok [] }

/-- The sample calendar day. -/
def sampleDay : Date := ⟨2024, 1, 1⟩

theorem filter_key_nil (l : List Record) :
    l.filter (fun r => decide (recordKey r ∉ ([] : List Record).map recordKey)) = l := by
  induction l with
  | nil => rfl
  | cons r rest ih => simp [List.filter, ih]

theorem filter_key_self (l : List Record) :
    l.filter (fun r => decide (recordKey r ∉ l.map recordKey)) = [] := by
  rw [List.filter_eq_nil_iff]
  intro r hr
  simp only [decide_eq_true_eq, Decidable.not_not]
  exact List.mem_map_of_mem recordKey hr

/-- C6: `_print_new_records` emits, in the current snapshot's order, exactly
the records of `current` whose identity key does not occur among the keys of
`previous`; in particular `diff(∅, S) = S` and `diff(S, S) = ∅`. -/
theorem c6_diff_semantics :
    (∀ prev cur : List Record,
      diffRecords prev cur = cur.filter (fun r => decide (recordKey r ∉ prev.map recordKey)))
    ∧ (∀ s : List Record, diffRecords [] s = s)
    ∧ (∀ s : List Record, diffRecords s s = []) := by
  refine ⟨?_, ?_, ?_⟩
  · intro prev cur
    cases prev with
    | nil => simp [diffRecords, filter_key_nil cur]
    | cons p ps => rfl
  · intro s
    rfl
  · intro s
    cases s with
    | nil => rfl
    | cons r rest =>
      show newRecords (r :: rest) (r :: rest) = []
      exact filter_key_self (r :: rest)

/-- C7 (counterexample): with `content_columns = ["处置"]`, the key the code
computes ignores the first configured content column — it concatenates the
hard-coded `姓名` field instead, so it differs from the spec's key. -/
theorem c7_counterexample :
    recordKey { time := .vDT ⟨2024, 1, 1, 9, 0, 0⟩, fields := [("处置", .vStr "X")] } ≠
      specIdentityKey ["处置"] { time := .vDT ⟨2024, 1, 1, 9, 0, 0⟩, fields := [("处置", .vStr "X")] } := by
  decide

/-- C7 (amended): the identity key used by change detection is the
concatenation of the record's canonical timestamp string with the value of
the fixed field `姓名` (falling back to the empty string when that field is
absent), independently of the configured content columns. -/
theorem c7_amended :
    (∀ (r : Record) (v : Value),
      lookupStr r.fields "姓名" = some v → recordKey r = pyStr r.time ++ pyStr v)
    ∧ (∀ r : Record,
      lookupStr r.fields "姓名" = none → recordKey r = pyStr r.time ++ "") := by
  constructor
  · intro r v h
    simp [recordKey, getD, h]
  · intro r h
    simp [recordKey, getD, h, pyStr]

theorem c7_amended_witness :
    recordKey sampleRecord = pyStr sampleRecord.time ++ pyStr (.vStr "张三") :=
  c7_amended.1 sampleRecord (.vStr "张三") rfl

/-- C1: writing the sample snapshot and reading it back on the same day does
NOT reproduce the snapshot — the record comes back with its timestamp as the
serialized string `"2024-01-01 09:00:00"`, not as the datetime value, because
`load_today_data` assigns the JSON payload without reconstructing datetimes. -/
theorem c1_cache_roundtrip_stringifies :
    cacheRead (cacheWrite sampleDay [sampleRecord]) sampleDay
      = .hit [{ time := .vStr "2024-01-01 09:00:00", fields := [("姓名", .vStr "张三")] }]
    ∧ cacheRead (cacheWrite sampleDay [sampleRecord]) sampleDay ≠ .hit [sampleRecord] := by
  exact ⟨rfl, by decide⟩

/-- C2 (counterexample): one unparseable (truthy) time value makes the whole
poll fail — with rows `[5, 甲]` and `[2024-01-01 09:00:00, 张三]` the load
returns `(False, 加载失败: ...)` and extracts nothing, even though the second
row alone extracts fine. -/
theorem c2_counterexample :
    (loadTodayData sampleConfigState
        { sampleEnv with rows := [[.vInt 5, .vStr "甲"], [.vStr "2024-01-01 09:00:00", .vStr "张三"]] }
        sampleDay).1
      = (false, "加载失败: 未知时间格式: 5")
    ∧ (loadTodayData sampleConfigState
        { sampleEnv with rows := [[.vInt 5, .vStr "甲"], [.vStr "2024-01-01 09:00:00", .vStr "张三"]] }
        sampleDay).2.1.todayData = []
    ∧ parseXlsxRows [[.vStr "2024-01-01 09:00:00", .vStr "张三"]] 1 [("姓名", 2)] sampleDay
      = .ok [sampleRecord] := by
  refine ⟨?_, ?_, rfl⟩ <;> rfl

theorem rowStep_skip (row : List Value) (ti : Nat) (cIdxs : List (String × Nat)) (today : Date)
    (hlt : ti - 1 < row.length) (hfalsy : truthy (row.getD (ti - 1) .vNone) = false) :
    rowStep row ti cIdxs today = .ok none := by
  simp only [rowStep, if_pos hlt, hfalsy]
  simp

theorem rowStep_err (row : List Value) (ti : Nat) (cIdxs : List (String × Nat)) (today : Date)
    (e : String)
    (hlt : ti - 1 < row.length) (htr : truthy (row.getD (ti - 1) .vNone) = true)
    (hpe : parseTime (row.getD (ti - 1) .vNone) = .error e) :
    rowStep row ti cIdxs today = .error e := by
  simp only [rowStep, if_pos hlt, htr, hpe]
  simp

/-- C9: a data row whose time cell holds any falsy value — `None`, `""`, `0`
or `False` — is silently dropped by xlsx extraction, without the value ever
reaching `_parse_time` (the remaining rows extract as if the row were not
there, whether or not the value would parse). -/
theorem c9_falsy_time_skipped :
    (∀ (row : List Value) (rest : List (List Value)) (ti : Nat)
        (cIdxs : List (String × Nat)) (today : Date),
      ti - 1 < row.length →
      truthy (row.getD (ti - 1) .vNone) = false →
      parseXlsxRows (row :: rest) ti cIdxs today = parseXlsxRows rest ti cIdxs today)
    ∧ truthy .vNone = false ∧ truthy (.vStr "") = false
    ∧ truthy (.vInt 0) = false ∧ truthy (.vBool false) = false := by
  refine ⟨?_, rfl, rfl, rfl, rfl⟩
  intro row rest ti cIdxs today hlt hfalsy
  rw [parseXlsxRows, rowStep_skip row ti cIdxs today hlt hfalsy]

theorem c9_falsy_time_skipped_witness :
    parseXlsxRows [[Value.vInt 0]] 1 [] sampleDay = parseXlsxRows [] 1 [] sampleDay :=
  c9_falsy_time_skipped.1 [Value.vInt 0] [] 1 [] sampleDay (by decide) rfl

/-- C2 (amended): a data row whose truthy time value fails `_parse_time`
raises inside `_parse_xlsx_rows`, aborting the entire extraction with that
error — the rows after it (and the rows already collected) are discarded and
the poll fails as a whole. -/
theorem c2_amended :
    ∀ (rows₁ rows₂ : List (List Value)) (row : List Value) (ti : Nat)
      (cIdxs : List (String × Nat)) (today : Date) (s₁ : List Record) (e : String),
      ti - 1 < row.length →
      truthy (row.getD (ti - 1) .vNone) = true →
      parseTime (row.getD (ti - 1) .vNone) = .error e →
      parseXlsxRows rows₁ ti cIdxs today = .ok s₁ →
      parseXlsxRows (rows₁ ++ row :: rows₂) ti cIdxs today = .error e := by
  intro rows₁
  induction rows₁ with
  | nil =>
    intro rows₂ row ti cIdxs today s₁ e hlt htr hpe _
    rw [List.nil_append, parseXlsxRows, rowStep_err row ti cIdxs today e hlt htr hpe]
  | cons r rs ih =>
    intro rows₂ row ti cIdxs today s₁ e hlt htr hpe hok
    rw [parseXlsxRows] at hok
    rw [List.cons_append, parseXlsxRows]
    cases hr : rowStep r ti cIdxs today with
    | error e' => rw [hr] at hok; simp at hok
    | ok o =>
      rw [hr] at hok
      cases o with
      | none => exact ih rows₂ row ti cIdxs today s₁ e hlt htr hpe hok
      | some rec =>
        cases hp : parseXlsxRows rs ti cIdxs today with
        | error e' => rw [hp] at hok; simp at hok
        | ok rs' =>
          rw [ih rows₂ row ti cIdxs today rs' e hlt htr hpe hp]

theorem c2_amended_witness :
    parseXlsxRows [[Value.vStr "2024-01-01 09:00:00", Value.vStr "张三"], [Value.vInt 5]]
        1 [("姓名", 2)] sampleDay
      = .error "未知时间格式: 5" :=
  c2_amended [[Value.vStr "2024-01-01 09:00:00", Value.vStr "张三"]] [] [Value.vInt 5]
    1 [("姓名", 2)] sampleDay [sampleRecord] "未知时间格式: 5"
    (by decide) rfl rfl rfl

/-- C4 (counterexample): a cache file holding well-formed JSON of the wrong
shape (the JSON list `[]`) is NOT treated as a miss — `cache.get('date')`
raises `AttributeError`, the poll is reported as a failure and no fresh
extraction happens, while the identical environment with a genuinely missing
cache extracts successfully. -/
theorem c4_counterexample :
    (loadTodayData sampleConfigState { sampleEnv with cache := .ok (.arr []) } sampleDay).1
      = (false, "加载失败: AttributeError")
    ∧ (loadTodayData sampleConfigState sampleEnv sampleDay).1
      = (true, "成功加载 1 条今日记录") := by
  refine ⟨?_, ?_⟩ <;> rfl

theorem loadFromExcel_cache_irrel (st : AppState) (env : Env) (today : Date)
    (c : CacheFileState) :
    loadFromExcel st { env with cache := c } today = loadFromExcel st env today := by
  cases env
  rfl

theorem loadTodayData_miss (st : AppState) (env : Env) (today : Date)
    (h : cacheRead env.cache today = .miss) :
    loadTodayData st env today
      = (match loadFromExcel st env today with
        | (res, st', some data) => (res, st', cacheWrite today data)
        | (res, st', none) => (res, st', env.cache)) := by
  unfold loadTodayData
  rw [h]

/-- C4 (amended): a missing cache file and a JSON-undecodable cache file are
both treated exactly like a miss — the poll result and the object state are
the same as with no cache at all, and extraction proceeds; other persisted
corruption (well-formed JSON of the wrong shape, or an unreadable file) is
instead surfaced as a failed poll. -/
theorem c4_amended :
    ∀ (st : AppState) (env : Env) (today : Date),
      env.cache = .malformed →
      cacheRead .missing today = .miss
      ∧ cacheRead .malformed today = .miss
      ∧ (loadTodayData st env today).1 = (loadTodayData st { env with cache := .missing } today).1
      ∧ (loadTodayData st env today).2.1
          = (loadTodayData st { env with cache := .missing } today).2.1 := by
  intro st env today hc
  have h1 : cacheRead env.cache today = .miss := by rw [hc]; rfl
  refine ⟨rfl, rfl, ?_, ?_⟩ <;>
  · rw [loadTodayData_miss st env today h1,
        loadTodayData_miss st { env with cache := .missing } today rfl,
        loadFromExcel_cache_irrel st env today .missing]
    rcases hfe : loadFromExcel st env today with ⟨res, st', dataOpt⟩
    cases dataOpt <;> simp

theorem loadFromExcel_fail_atomic (st : AppState) (env : Env) (today : Date)
    (h : enumeratedFailure st env today) :
    (loadFromExcel st env today).1.1 = false
    ∧ (loadFromExcel st env today).2.1.todayData = st.todayData
    ∧ (loadFromExcel st env today).2.2 = none := by
  rcases h with hse | ⟨h1, h2⟩ | ⟨hx, hgc⟩ | ⟨hx, ti, cIdxs, hok, hpf⟩ | ⟨hx, hrd⟩ | ⟨hx, hrd, hpf⟩
  · simp [loadFromExcel, hse]
  · cases hse : env.sourceExists with
    | false => simp [loadFromExcel, hse]
    | true => simp [loadFromExcel, hse, h1, h2]
  · obtain ⟨e, hge⟩ : ∃ e, getColumns env.header st.timeColumn st.contentColumns = .error e := by
      cases hg : getColumns env.header st.timeColumn st.contentColumns with
      | error e => exact ⟨e, rfl⟩
      | ok p => rw [hg] at hgc; simp [isErr] at hgc
    cases hse : env.sourceExists with
    | false => simp [loadFromExcel, hse]
    | true => simp [loadFromExcel, hse, hx, hge]
  · obtain ⟨e, hpe⟩ : ∃ e, parseXlsxRows env.rows ti cIdxs today = .error e := by
      cases hg : parseXlsxRows env.rows ti cIdxs today with
      | error e => exact ⟨e, rfl⟩
      | ok p => rw [hg] at hpf; simp [isErr] at hpf
    cases hse : env.sourceExists with
    | false => simp [loadFromExcel, hse]
    | true => simp [loadFromExcel, hse, hx, hok, hpe]
  · obtain ⟨e, hre⟩ : ∃ e, env.xlsRead = .error e := by
      cases hg : env.xlsRead with
      | error e => exact ⟨e, rfl⟩
      | ok p => rw [hg] at hrd; simp [isErr] at hrd
    have hne : strToLower env.ext ≠ ".xlsx" := by rw [hx]; decide
    cases hse : env.sourceExists with
    | false => simp [loadFromExcel, hse]
    | true => simp [loadFromExcel, hse, hx, hne, hre]
  · obtain ⟨e, hpe⟩ : ∃ e, env.xlsParse = .error e := by
      cases hg : env.xlsParse with
      | error e => exact ⟨e, rfl⟩
      | ok p => rw [hg] at hpf; simp [isErr] at hpf
    have hne : strToLower env.ext ≠ ".xlsx" := by rw [hx]; decide
    cases hse : env.sourceExists with
    | false => simp [loadFromExcel, hse]
    | true => simp [loadFromExcel, hse, hx, hne, hrd, hpe]

/-- C5: whenever a poll fails for one of the enumerated causes — source
missing, unsupported extension, missing time column, or any exception during
extraction — `today_data` keeps the value it had before the poll and
`_cache_data` is not performed: the cache file is exactly what it was. -/
theorem c5_failure_atomic :
    ∀ (st : AppState) (env : Env) (today : Date),
      cacheRead env.cache today = .miss →
      enumeratedFailure st env today →
      (loadTodayData st env today).1.1 = false
      ∧ (loadTodayData st env today).2.1.todayData = st.todayData
      ∧ (loadTodayData st env today).2.2 = env.cache := by
  intro st env today hmiss henum
  have hfe := loadFromExcel_fail_atomic st env today henum
  rw [loadTodayData_miss st env today hmiss]
  rcases h : loadFromExcel st env today with ⟨⟨succ, msg⟩, st', dataOpt⟩
  rw [h] at hfe
  simp only at hfe
  obtain ⟨hf, ht, hd⟩ := hfe
  subst hd
  subst hf
  exact ⟨rfl, ht, rfl⟩

theorem c5_failure_atomic_witness :
    (loadTodayData sampleConfigState { sampleEnv with sourceExists := false } sampleDay).1.1 = false
    ∧ (loadTodayData sampleConfigState { sampleEnv with sourceExists := false } sampleDay).2.1.todayData
        = sampleConfigState.todayData
    ∧ (loadTodayData sampleConfigState { sampleEnv with sourceExists := false } sampleDay).2.2
        = ({ sampleEnv with sourceExists := false } : Env).cache :=
  c5_failure_atomic sampleConfigState { sampleEnv with sourceExists := false } sampleDay
    rfl (Or.inl rfl)

theorem c4_amended_witness :
    cacheRead .missing sampleDay = .miss
    ∧ cacheRead .malformed sampleDay = .miss
    ∧ (loadTodayData sampleConfigState { sampleEnv with cache := .malformed } sampleDay).1
        = (loadTodayData sampleConfigState
            { { sampleEnv with cache := .malformed } with cache := .missing } sampleDay).1
    ∧ (loadTodayData sampleConfigState { sampleEnv with cache := .malformed } sampleDay).2.1
        = (loadTodayData sampleConfigState
            { { sampleEnv with cache := .malformed } with cache := .missing } sampleDay).2.1 :=
  c4_amended sampleConfigState { sampleEnv with cache := .malformed } sampleDay rfl

/-- C3: restart after stop never polls.  `stop_refreshing` sets `stop_event`
and nothing ever clears it, so a later `start_refreshing` (after the old
thread has died) does spawn a thread, but that thread's loop guard
`while not self.stop_event.is_set()` is false at entry: the restarted loop
performs zero poll iterations, for any amount of fuel, instead of re-entering
a running refresh cycle. -/
theorem c3_restart_never_polls :
    (startRefreshing (threadExited (stopRefreshing
        (startRefreshing initScheduler defaultRefreshInterval))) defaultRefreshInterval).threadAlive
      = true
    ∧ (startRefreshing (threadExited (stopRefreshing
        (startRefreshing initScheduler defaultRefreshInterval))) defaultRefreshInterval).stopEvent
      = true
    ∧ ∀ fuel : Nat,
        refreshLoopIters
          (fun _ => (startRefreshing (threadExited (stopRefreshing
            (startRefreshing initScheduler defaultRefreshInterval))) defaultRefreshInterval).stopEvent)
          0 fuel = 0 := by
  refine ⟨rfl, rfl, ?_⟩
  intro fuel
  cases fuel with
  | zero => rfl
  | succ n => simp [refreshLoopIters, startRefreshing, stopRefreshing, threadExited, initScheduler]

theorem refreshLoopIters_le (flag : Nat → Bool) (t : Nat)
    (mono : ∀ i j : Nat, i ≤ j → flag i = true → flag j = true) (ht : flag t = true) :
    ∀ (fuel k : Nat), refreshLoopIters flag k fuel ≤ t - k := by
  intro fuel
  induction fuel with
  | zero => intro k; simp [refreshLoopIters]
  | succ n ih =>
    intro k
    rw [refreshLoopIters]
    cases hk : flag k with
    | true => simp
    | false =>
      have hkt : k < t := by
        by_contra hc
        push_neg at hc
        rw [mono t k hc ht] at hk
        exact Bool.noConfusion hk
      have h2 := ih (k + 1)
      simp [hk]
      omega

/-- C8: the loop checks `stop_event` before every iteration, so once the stop
flag is set (and stays set — the event is never cleared) at check `t`, no poll
iteration at or after `t` executes, whatever the loop's remaining lifetime;
and `stop_refreshing` blocks its caller with `join(timeout=1)`, a bound of
one second — far below the default poll interval of 3600 seconds. -/
theorem c8_stop_prompt :
    (∀ (flag : Nat → Bool) (t fuel : Nat),
      (∀ i j : Nat, i ≤ j → flag i = true → flag j = true) → flag t = true →
      refreshLoopIters flag 0 fuel ≤ t)
    ∧ stopJoinTimeout = 1 ∧ stopJoinTimeout < defaultRefreshInterval := by
  refine ⟨?_, rfl, by decide⟩
  intro flag t fuel mono ht
  have := refreshLoopIters_le flag t mono ht fuel 0
  simpa using this

theorem c8_stop_prompt_witness :
    refreshLoopIters (fun i => decide (2 ≤ i)) 0 9 ≤ 2 :=
  c8_stop_prompt.1 (fun i => decide (2 ≤ i)) 2 9
    (by intro i j hij hi; simp only [decide_eq_true_eq] at hi ⊢; omega) (by decide)

theorem upsert_lookupStr_self {α : Type} (l : List (String × α)) (k : String) (v : α) :
    lookupStr (upsert l k v) k = some v := by
  induction l with
  | nil => simp [upsert, lookupStr]
  | cons kv rest ih =>
    rcases kv with ⟨k', v'⟩
    by_cases h : k' = k
    · simp [upsert, h, lookupStr]
    · simp [upsert, h, lookupStr, ih]

theorem upsert_lookupStr_ne {α : Type} (l : List (String × α)) (k c : String) (v : α)
    (h : k ≠ c) :
    lookupStr (upsert l k v) c = lookupStr l c := by
  induction l with
  | nil => simp [upsert, lookupStr, h]
  | cons kv rest ih =>
    rcases kv with ⟨k', v'⟩
    by_cases h' : k' = k
    · subst h'
      simp [upsert, lookupStr, h]
    · simp [upsert, h', lookupStr, ih]

theorem getColumnsAux_append (xs ys : List Value) (tc : String) (ccs : List String) :
    ∀ (i : Nat) (tAcc : Option Nat) (cAcc : List (String × Nat)),
    getColumnsAux (xs ++ ys) i tc ccs tAcc cAcc
      = getColumnsAux ys (i + xs.length) tc ccs
          (getColumnsAux xs i tc ccs tAcc cAcc).1 (getColumnsAux xs i tc ccs tAcc cAcc).2 := by
  induction xs with
  | nil => intro i tAcc cAcc; simp [getColumnsAux]
  | cons c rest ih =>
    intro i tAcc cAcc
    simp only [List.cons_append, getColumnsAux, List.length_cons]
    rw [show rest.append ys = rest ++ ys from rfl, ih]
    have h : i + (rest.length + 1) = i + 1 + rest.length := by omega
    rw [h]

theorem getColumnsAux_time_frozen (ys : List Value) (tc : String) (ccs : List String) :
    ∀ (i k : Nat) (cAcc : List (String × Nat)),
    Value.vStr tc ∉ ys →
    (getColumnsAux ys i tc ccs (some k) cAcc).1 = some k := by
  induction ys with
  | nil => intro i k cAcc _; rfl
  | cons y rest ih =>
    intro i k cAcc h
    have hy : ¬ (y = Value.vStr tc) := by
      intro he
      exact h (he ▸ List.mem_cons_self y rest)
    have hr : Value.vStr tc ∉ rest := fun hm => h (List.mem_cons_of_mem y hm)
    simp only [getColumnsAux, if_neg hy]
    exact ih (i + 1) k _ hr

theorem getColumnsAux_content_frozen (ys : List Value) (c : String) (tc : String)
    (ccs : List String) :
    ∀ (i : Nat) (tAcc : Option Nat) (cAcc : List (String × Nat)),
    Value.vStr c ∉ ys →
    lookupStr (getColumnsAux ys i tc ccs tAcc cAcc).2 c = lookupStr cAcc c := by
  induction ys with
  | nil => intro i tAcc cAcc _; rfl
  | cons y rest ih =>
    intro i tAcc cAcc h
    have hr : Value.vStr c ∉ rest := fun hm => h (List.mem_cons_of_mem y hm)
    cases y with
    | vStr s =>
      have hsc : s ≠ c := by
        intro he
        subst he
        exact h (List.mem_cons_self _ _)
      by_cases hs : s ∈ ccs
      · simp only [getColumnsAux, if_pos hs]
        rw [ih _ _ _ hr, upsert_lookupStr_ne _ _ _ _ hsc]
      · simp only [getColumnsAux, if_neg hs]
        exact ih _ _ _ hr
    | vNone => exact ih _ _ _ hr
    | vBool b => exact ih _ _ _ hr
    | vInt n => exact ih _ _ _ hr
    | vDT t => exact ih _ _ _ hr
    | vDate d => exact ih _ _ _ hr

/-- C10: when the header contains the configured time-column name (or a
content-column name) more than once, `_get_columns` binds the name to the
1-based index of the LAST matching header cell: whatever duplicates precede,
a match at position `pre.length + 1` with no later match fixes the binding. -/
theorem c10_last_header_wins :
    (∀ (pre post : List Value) (tc : String) (ccs : List String),
      Value.vStr tc ∉ post →
      ∃ cIdxs, getColumns (pre ++ .vStr tc :: post) tc ccs = .ok (pre.length + 1, cIdxs))
    ∧ (∀ (pre post : List Value) (tc c : String) (ccs : List String)
        (ti : Nat) (cIdxs : List (String × Nat)),
      c ∈ ccs → Value.vStr c ∉ post →
      getColumns (pre ++ .vStr c :: post) tc ccs = .ok (ti, cIdxs) →
      lookupStr cIdxs c = some (pre.length + 1)) := by
  constructor
  · intro pre post tc ccs hpost
    unfold getColumns
    rw [getColumnsAux_append pre (.vStr tc :: post) tc ccs 1 none []]
    simp only [getColumnsAux, eq_self_iff_true, if_true]
    generalize hP : getColumnsAux pre 1 tc ccs none [] = P
    generalize hC : (if tc ∈ ccs then upsert P.2 tc (1 + pre.length) else P.2) = C
    rcases haux : getColumnsAux post (1 + pre.length + 1) tc ccs (some (1 + pre.length)) C
      with ⟨topt, cis⟩
    have ht : topt = some (1 + pre.length) := by
      have hfz := getColumnsAux_time_frozen post tc ccs (1 + pre.length + 1) (1 + pre.length) C hpost
      rw [haux] at hfz
      exact hfz
    subst ht
    exact ⟨cis, by rw [Nat.add_comm 1 pre.length]⟩
  · intro pre post tc c ccs ti cIdxs hc hpost hok
    unfold getColumns at hok
    rw [getColumnsAux_append pre (.vStr c :: post) tc ccs 1 none []] at hok
    simp only [getColumnsAux] at hok
    generalize hP : getColumnsAux pre 1 tc ccs none [] = P at hok
    generalize hT : (if (Value.vStr c : Value) = Value.vStr tc then some (1 + pre.length) else P.1) = T at hok
    rw [if_pos hc] at hok
    rcases haux : getColumnsAux post (1 + pre.length + 1) tc ccs T (upsert P.2 c (1 + pre.length))
      with ⟨topt, cis⟩
    have hlk := getColumnsAux_content_frozen post c tc ccs (1 + pre.length + 1) T
      (upsert P.2 c (1 + pre.length)) hpost
    rw [haux] at hok hlk
    rw [upsert_lookupStr_self] at hlk
    cases topt with
    | none => simp at hok
    | some tj =>
      simp only [] at hok
      injection hok with hok1
      injection hok1 with hti hci
      subst hci
      rw [hlk, Nat.add_comm]

theorem c10_last_header_wins_witness :
    (∃ cIdxs, getColumns [Value.vStr "T", Value.vStr "N", Value.vStr "T"] "T" ["N"]
        = .ok (3, cIdxs))
    ∧ lookupStr [("N", 3)] "N" = some 3 :=
  ⟨c10_last_header_wins.1 [Value.vStr "T", Value.vStr "N"] [] "T" ["N"] (by decide),
   c10_last_header_wins.2 [Value.vStr "N", Value.vStr "T"] [] "T" "N" ["N"] 2 [("N", 3)]
     (by decide) (by decide) rfl⟩

end ExcelReminder
